import Mathlib

/-!
A shallow embedding of `src/core/data/worker.c`, the per-worker-thread event
core of the pelikan cache server: connection dispatch, read/write handlers with
backpressure, the bidirectional connection-handoff protocol (inbound ring queue
plus signal pipe, outbound ring queue plus signal pipe), and connection
teardown.  External collaborators (the ccommon event base, ring array, pipes,
the buffered tcp transport and the pluggable data processor) are not part of
the repository sources; where their behaviour matters they are modelled from
the specification, as noted on each definition.

Every step function threads a `WState` record and appends to an action trace,
so that ordering properties (hook-before-unregister, flush-before-hook,
single final teardown check) can be stated about a single dispatch.
-/

namespace PelikanWorker

/-- Status code `CC_OK` of the ccommon `rstatus_i` convention.  Modelled from
the spec: the source compares status codes only for equality and sign, so all
that matters is that the codes are distinct and the failure codes negative. -/
def CC_OK : Int := 0

/-- Status code `CC_ERROR` (hard failure). -/
def CC_ERROR : Int := -1

/-- Status code `CC_EAGAIN` (retryable, would-block). -/
def CC_EAGAIN : Int := -2

/-- Status code `CC_ERETRY` (retryable). -/
def CC_ERETRY : Int := -3

/-- Channel (connection) states used by the worker: `CHANNEL_OPEN`,
`CHANNEL_TERM`, `CHANNEL_ERROR` from ccommon's channel abstraction. -/
inductive ChannelState where
  | OPEN
  | TERM
  | ERROR
deriving DecidableEq, Repr

/-- A byte buffer, abstracted to its readable content; `buf_rsize` is its
length.  The worker only ever asks a buffer for its readable size. -/
abbrev Buf := List Nat

/-- `buf_rsize`: number of readable bytes in a buffer. -/
def buf_rsize (b : Buf) : Nat := b.length

/-- Interest bits registered for one event id.  Modelled from the spec:
`register_read` / `register_write` / `unregister` are idempotent and at most
one entry per id is active; registering one direction keeps the other
direction's bit, so "both" is representable and `event_del` is what clears. -/
structure Interest where
  rd : Bool
  wr : Bool
deriving DecidableEq, Repr

/-- A connection record (`struct buf_sock`): channel id (`rid` and `wid` of a
tcp connection are both its socket descriptor, modelled from the spec's single
demote-to-write-only reading), channel state, read/write buffers, the
processor-private data slot, and the owner/handler back-references (`owner`
true means the owner is this worker's reactor context, `hdl` true means the
handler is this worker's fixed channel-operation set). -/
structure BufSock where
  sid : Nat
  state : ChannelState
  rbuf : Buf
  wbuf : Buf
  data : Nat
  owner : Bool
  hdl : Bool
deriving DecidableEq, Repr

/-- The reactor's registration table: an association list from event id to
(interest bits, user data).  User data is `none` for the handoff-signal pipe
and `some s` for a connection, mirroring the `void *` argument of dispatch. -/
abbrev EventBase := List (Nat × Interest × Option BufSock)

/-- Look up the registration for an id (first match). -/
def ev_lookup : EventBase → Nat → Option (Interest × Option BufSock)
  | [], _ => none
  | e :: rest, i => if e.1 = i then some e.2 else ev_lookup rest i

/-- `event_del`: remove any registration for the id. -/
def event_del : EventBase → Nat → EventBase
  | [], _ => []
  | e :: rest, i => if e.1 = i then event_del rest i else e :: event_del rest i

/-- Current write-interest bit of an id (false when unregistered). -/
def ev_wr (evb : EventBase) (i : Nat) : Bool :=
  match ev_lookup evb i with
  | some p => p.1.wr
  | none => false

/-- Current read-interest bit of an id (false when unregistered). -/
def ev_rd (evb : EventBase) (i : Nat) : Bool :=
  match ev_lookup evb i with
  | some p => p.1.rd
  | none => false

/-- `event_add_read`: register read interest for the id, keeping any existing
write interest, replacing the user data.  Modelled from the spec's idempotent
`register_read(id, user_data)`. -/
def event_add_read (evb : EventBase) (i : Nat) (ud : Option BufSock) : EventBase :=
  (i, ⟨true, ev_wr evb i⟩, ud) :: event_del evb i

/-- `event_add_write`: register write interest for the id, keeping any
existing read interest, replacing the user data. -/
def event_add_write (evb : EventBase) (i : Nat) (ud : Option BufSock) : EventBase :=
  (i, ⟨ev_rd evb i, true⟩, ud) :: event_del evb i

/-- A bounded single-producer/single-consumer ring queue of connections
(`struct ring_array` specialised to `struct buf_sock *` as the worker uses
it).  Modelled from the spec: FIFO, bounded capacity, pop fails on empty,
push fails on full. -/
structure RingArray where
  cap : Nat
  items : List BufSock
deriving DecidableEq, Repr

/-- `ring_array_pop`: take the oldest entry; `none` on empty. -/
def ring_array_pop (r : RingArray) : Option (BufSock × RingArray) :=
  match r.items with
  | [] => none
  | s :: rest => some (s, { r with items := rest })

/-- `ring_array_push`: append an entry; `none` when the queue is full. -/
def ring_array_push (s : BufSock) (r : RingArray) : Option RingArray :=
  if r.items.length < r.cap then some { r with items := r.items ++ [s] } else none

/-- Result of a data-processor hook call: status plus the possibly rewritten
read buffer, write buffer and private data slot (the hooks receive pointers to
all three). -/
structure HookResult where
  status : Int
  rbuf : Buf
  wbuf : Buf
  data : Nat
deriving DecidableEq, Repr

/-- The pluggable data processor (`struct data_processor`): `read`, `write`
and `error` hooks, each a pure function of the buffers and private slot.
Modelled from the spec: the processor is an external capability; a negative
status means "terminate this connection". -/
structure DataProcessor where
  read : Buf → Buf → Nat → HookResult
  write : Buf → Buf → Nat → HookResult
  error : Buf → Buf → Nat → HookResult

/-- Result of `buf_tcp_write`: a transport status and the remaining write
buffer after the flush attempt. -/
structure TcpWriteResult where
  status : Int
  wbuf : Buf
deriving DecidableEq, Repr

/-- Result of `buf_tcp_read`: the grown read buffer and the channel state,
which the transport may move out of OPEN on eof or error (the spec: transport
errors are reflected into the connection's state, not raised). -/
structure TcpReadResult where
  rbuf : Buf
  state : ChannelState
deriving DecidableEq, Repr

/-- The buffered tcp transport, as an oracle for the outcomes of
`buf_tcp_read` and `buf_tcp_write`.  Modelled from the spec: non-blocking,
may accept any amount, reports retryable and hard failures as statuses. -/
structure Transport where
  tcpRead : Buf → ChannelState → TcpReadResult
  tcpWrite : Buf → TcpWriteResult

/-- Event id of the inbound signal pipe's read end (`pipe_read_id(pipe_new)`). -/
def pipe_new_rid : Nat := 0

/-- Event id of the outbound signal pipe's write end
(`pipe_write_id(pipe_term)`). -/
def pipe_term_wid : Nat := 1

/-- One observable action of the worker core, recorded in dispatch order. -/
inductive Act where
  | tcpRead (sid : Nat)
  | tcpWrite (sid : Nat)
  | hookRead (sid : Nat)
  | hookWrite (sid : Nat)
  | hookErr (sid : Nat)
  | evDel (i : Nat)
  | evAddRead (i : Nat)
  | evAddWrite (i : Nat)
  | ringPop (sid : Nat)
  | ringPush (sid : Nat)
  | pipeRecv
  | pipeSend
  | chTerm (sid : Nat)
  | sockReset (sid : Nat)
  | retStream (sid : Nat)
deriving DecidableEq, Repr

/-- The worker-mutable state threaded through every step: the reactor's
registration table, the inbound (`conn_new`) and outbound (`conn_term`) ring
queues, and the action trace. -/
structure WState where
  evb : EventBase
  conn_new : RingArray
  conn_term : RingArray
  trace : List Act
deriving DecidableEq, Repr

/-- Result of `_worker_event_write`: the status returned to the caller, the
updated worker state and the updated connection. -/
structure WriteOut where
  status : Int
  st : WState
  s : BufSock
deriving DecidableEq, Repr

/-- The actions of one `_worker_event_write` call: the flush attempt, the
interest demotion when the transport status is retryable, then always the
`write` hook. -/
def write_trace (sid : Nat) (tstatus : Int) : List Act :=
  [Act.tcpWrite sid] ++
    (if tstatus = CC_ERETRY ∨ tstatus = CC_EAGAIN then
      [Act.evDel sid, Act.evAddWrite sid]
    else []) ++
    [Act.hookWrite sid]

/-- `_worker_event_write` (worker.c:37-69): attempt `buf_tcp_write`; on a
retryable status remove the connection's current interest and register write
interest (backpressure propagation); on `CC_ERROR` force `CHANNEL_TERM`.
Then always invoke the processor's `write` hook; a negative hook status
forces `CHANNEL_TERM` and makes the call return `CC_ERROR`, otherwise the
transport status is returned. -/
def _worker_event_write (P : DataProcessor) (T : Transport) (st : WState) (s : BufSock) :
    WriteOut :=
  let tw := T.tcpWrite s.wbuf
  let s1 : BufSock := { s with wbuf := tw.wbuf }
  let evb1 :=
    if tw.status = CC_ERETRY ∨ tw.status = CC_EAGAIN then
      event_add_write (event_del st.evb s.sid) s.sid (some s1)
    else st.evb
  let s2 : BufSock :=
    if tw.status = CC_ERETRY ∨ tw.status = CC_EAGAIN then s1
    else if tw.status = CC_ERROR then { s1 with state := ChannelState.TERM }
    else s1
  let h := P.write s2.rbuf s2.wbuf s2.data
  let s3 : BufSock := { s2 with rbuf := h.rbuf, wbuf := h.wbuf, data := h.data }
  let st1 : WState := { st with evb := evb1, trace := st.trace ++ write_trace s.sid tw.status }
  if h.status < 0 then
    ⟨CC_ERROR, st1, { s3 with state := ChannelState.TERM }⟩
  else
    ⟨tw.status, st1, s3⟩

/-- `_worker_event_read` (worker.c:72-90): `buf_tcp_read` into the read
buffer (the transport may move the channel state), then the processor's
`read` hook; a negative hook status forces `CHANNEL_TERM` and returns with
no write attempt; otherwise, when the write hook left the write buffer
non-empty, opportunistically run `_worker_event_write`. -/
def _worker_event_read (P : DataProcessor) (T : Transport) (st : WState) (s : BufSock) :
    WState × BufSock :=
  let tr := T.tcpRead s.rbuf s.state
  let s1 : BufSock := { s with rbuf := tr.rbuf, state := tr.state }
  let h := P.read s1.rbuf s1.wbuf s1.data
  let s2 : BufSock := { s1 with rbuf := h.rbuf, wbuf := h.wbuf, data := h.data }
  let st1 : WState := { st with trace := st.trace ++ [Act.tcpRead s.sid, Act.hookRead s.sid] }
  if h.status < 0 then
    (st1, { s2 with state := ChannelState.TERM })
  else if buf_rsize s2.wbuf > 0 then
    let w := _worker_event_write P T st1 s2
    (w.st, w.s)
  else
    (st1, s2)

/-- The per-signal-byte loop of `worker_add_stream` (worker.c:118-130): pop
one connection from the inbound ring queue (a pop failure logs the undercount
and abandons the remaining iterations), set its owner to this reactor context
and its handler to this worker's operation set, and register read interest
with the connection as user data. -/
def worker_add_stream_loop : Nat → WState → WState
  | 0, st => st
  | n + 1, st =>
    match ring_array_pop st.conn_new with
    | none => st
    | some (s, q) =>
      let s1 : BufSock := { s with owner := true, hdl := true }
      worker_add_stream_loop n
        { st with
            conn_new := q,
            evb := event_add_read st.evb s1.sid (some s1),
            trace := st.trace ++ [Act.ringPop s.sid, Act.evAddRead s1.sid] }

/-- `worker_add_stream` (worker.c:92-131): drain the inbound signal pipe;
`pr` is the oracle outcome of `pipe_recv` (bytes read, or a negative code).
On a pipe error no connection is popped; otherwise each byte drained pops and
registers one connection. -/
def worker_add_stream (pr : Int) (st : WState) : WState :=
  let st0 : WState := { st with trace := st.trace ++ [Act.pipeRecv] }
  if pr < 0 then st0
  else worker_add_stream_loop pr.toNat st0

/-- `_worker_pipe_write` (worker.c:133-147): attempt to send one byte on the
outbound signal pipe; `ps` is the oracle outcome of `pipe_send`.  A zero or
`CC_EAGAIN` outcome registers write interest on the pipe's write id with null
user data (retry later); `CC_ERROR` only logs; success needs nothing more. -/
def _worker_pipe_write (ps : Int) (st : WState) : WState :=
  if ps = 0 ∨ ps = CC_EAGAIN then
    { st with
        evb := event_add_write st.evb pipe_term_wid none,
        trace := st.trace ++ [Act.pipeSend, Act.evAddWrite pipe_term_wid] }
  else
    { st with trace := st.trace ++ [Act.pipeSend] }

/-- `worker_ret_stream` (worker.c:149-173): invoke the processor's `error`
hook, unregister the connection's event id, then push the connection onto the
outbound ring queue.  On push success, run `_worker_pipe_write`; when the
queue is full, close the transport (`hdl->term`), reset the record and return
it to the pool locally. -/
def worker_ret_stream (P : DataProcessor) (ps : Int) (st : WState) (s : BufSock) : WState :=
  let h := P.error s.rbuf s.wbuf s.data
  let s1 : BufSock := { s with rbuf := h.rbuf, wbuf := h.wbuf, data := h.data }
  let st1 : WState :=
    { st with
        evb := event_del st.evb s1.sid,
        trace := st.trace ++ [Act.retStream s.sid, Act.hookErr s.sid, Act.evDel s1.sid] }
  match ring_array_push s1 st1.conn_term with
  | none =>
    { st1 with trace := st1.trace ++ [Act.chTerm s1.sid, Act.sockReset s1.sid] }
  | some q =>
    _worker_pipe_write ps
      { st1 with conn_term := q, trace := st1.trace ++ [Act.ringPush s1.sid] }

/-- The event mask delivered with one dispatch: the `EVENT_READ`,
`EVENT_WRITE` and `EVENT_ERR` bits.  Modelled from the spec: a bitmask of
READABLE, WRITABLE, ERROR. -/
structure EventSet where
  rd : Bool
  wr : Bool
  er : Bool
deriving DecidableEq, Repr

/-- The connection arm of `_worker_event` (worker.c:195-215), before the
final teardown check: handle the READ bit (`_worker_event_read`), then the
WRITE bit (`_worker_event_write`; on `CC_OK` the write backlog cleared, so
demote back to read-only interest), then the ERR bit (force `CHANNEL_TERM`,
as the source does). -/
def worker_event_conn (P : DataProcessor) (T : Transport) (events : EventSet)
    (st : WState) (s : BufSock) : WState × BufSock :=
  let a := if events.rd then _worker_event_read P T st s else (st, s)
  let b :=
    if events.wr then
      let w := _worker_event_write P T a.1 a.2
      if w.status = CC_OK then
        ({ w.st with
             evb := event_add_read (event_del w.st.evb w.s.sid) w.s.sid (some w.s),
             trace := w.st.trace ++ [Act.evDel w.s.sid, Act.evAddRead w.s.sid] }, w.s)
      else (w.st, w.s)
    else a
  let s2 : BufSock := if events.er then { b.2 with state := ChannelState.TERM } else b.2
  (b.1, s2)

/-- `_worker_event` (worker.c:175-230), one dispatch: null user data routes
the READ bit to `worker_add_stream` (oracle `pr`) and the WRITE bit to the
`_worker_pipe_write` retry (oracle `ps`), the ERR bit only logs; a connection
argument routes through `worker_event_conn`, and afterwards — once per
dispatch — a connection whose state is `CHANNEL_TERM` or `CHANNEL_ERROR` is
handed to `worker_ret_stream`.  Returns the final snapshot of the dispatched
connection alongside the state. -/
def _worker_event (P : DataProcessor) (T : Transport) (pr ps : Int)
    (arg : Option BufSock) (events : EventSet) (st : WState) : WState × Option BufSock :=
  match arg with
  | none =>
    let st1 := if events.rd then worker_add_stream pr st else st
    let st2 := if events.wr then _worker_pipe_write ps st1 else st1
    (st2, none)
  | some s =>
    let b := worker_event_conn P T events st s
    if b.2.state = ChannelState.TERM ∨ b.2.state = ChannelState.ERROR then
      (worker_ret_stream P ps b.1 b.2, some b.2)
    else
      (b.1, some b.2)

/-! ### Basic lemmas about the registration table -/

theorem ev_lookup_event_del_self (evb : EventBase) (i : Nat) :
    ev_lookup (event_del evb i) i = none := by
  induction evb with
  | nil => simp [event_del, ev_lookup]
  | cons e rest ih =>
    by_cases h : e.1 = i
    · simp [event_del, h, ih]
    · simp [event_del, ev_lookup, h, ih]

theorem ev_lookup_event_del_ne (evb : EventBase) {i j : Nat} (h : j ≠ i) :
    ev_lookup (event_del evb i) j = ev_lookup evb j := by
  induction evb with
  | nil => simp [event_del]
  | cons e rest ih =>
    have hij : ¬ i = j := fun hh => h hh.symm
    by_cases he : e.1 = i
    · simp [event_del, he, ev_lookup, hij, ih]
    · by_cases hj : e.1 = j
      · simp [event_del, he, ev_lookup, hj, h]
      · simp [event_del, he, ev_lookup, hj, ih]

theorem ev_lookup_add_read_self (evb : EventBase) (i : Nat) (ud : Option BufSock) :
    ev_lookup (event_add_read evb i ud) i = some (⟨true, ev_wr evb i⟩, ud) := by
  simp [event_add_read, ev_lookup]

theorem ev_lookup_add_read_ne (evb : EventBase) {i j : Nat} (h : j ≠ i)
    (ud : Option BufSock) :
    ev_lookup (event_add_read evb i ud) j = ev_lookup evb j := by
  have hij : ¬ i = j := fun hh => h hh.symm
  simp [event_add_read, ev_lookup, hij, ev_lookup_event_del_ne evb h]

theorem ev_lookup_add_write_self (evb : EventBase) (i : Nat) (ud : Option BufSock) :
    ev_lookup (event_add_write evb i ud) i = some (⟨ev_rd evb i, true⟩, ud) := by
  simp [event_add_write, ev_lookup]

theorem ev_lookup_add_write_ne (evb : EventBase) {i j : Nat} (h : j ≠ i)
    (ud : Option BufSock) :
    ev_lookup (event_add_write evb i ud) j = ev_lookup evb j := by
  have hij : ¬ i = j := fun hh => h hh.symm
  simp [event_add_write, ev_lookup, hij, ev_lookup_event_del_ne evb h]

theorem ev_wr_of_lookup_none {evb : EventBase} {i : Nat}
    (h : ev_lookup evb i = none) : ev_wr evb i = false := by
  simp [ev_wr, h]

theorem ev_wr_add_write_self (evb : EventBase) (i : Nat) (ud : Option BufSock) :
    ev_wr (event_add_write evb i ud) i = true := by
  simp [ev_wr, ev_lookup_add_write_self]

theorem ev_wr_add_write_ne (evb : EventBase) {i j : Nat} (h : j ≠ i)
    (ud : Option BufSock) :
    ev_wr (event_add_write evb i ud) j = ev_wr evb j := by
  simp [ev_wr, ev_lookup_add_write_ne evb h]

theorem ev_wr_add_read_ne (evb : EventBase) {i j : Nat} (h : j ≠ i)
    (ud : Option BufSock) :
    ev_wr (event_add_read evb i ud) j = ev_wr evb j := by
  simp [ev_wr, ev_lookup_add_read_ne evb h]

theorem ev_wr_event_del_ne (evb : EventBase) {i j : Nat} (h : j ≠ i) :
    ev_wr (event_del evb i) j = ev_wr evb j := by
  simp [ev_wr, ev_lookup_event_del_ne evb h]

/-! ### Projection lemmas for the write handler -/

theorem event_write_st_eq (P : DataProcessor) (T : Transport) (st : WState) (s : BufSock) :
    (_worker_event_write P T st s).st =
      { st with
          evb :=
            if (T.tcpWrite s.wbuf).status = CC_ERETRY ∨ (T.tcpWrite s.wbuf).status = CC_EAGAIN
            then event_add_write (event_del st.evb s.sid) s.sid
                   (some { s with wbuf := (T.tcpWrite s.wbuf).wbuf })
            else st.evb,
          trace := st.trace ++ write_trace s.sid (T.tcpWrite s.wbuf).status } := by
  simp only [_worker_event_write]
  by_cases hr : (T.tcpWrite s.wbuf).status = CC_ERETRY ∨ (T.tcpWrite s.wbuf).status = CC_EAGAIN
  · simp only [if_pos hr]
    split <;> rfl
  · simp only [if_neg hr]
    by_cases he : (T.tcpWrite s.wbuf).status = CC_ERROR
    · simp only [if_pos he]
      split <;> rfl
    · simp only [if_neg he]
      split <;> rfl

theorem event_write_s_sid (P : DataProcessor) (T : Transport) (st : WState) (s : BufSock) :
    (_worker_event_write P T st s).s.sid = s.sid := by
  simp only [_worker_event_write]
  by_cases hr : (T.tcpWrite s.wbuf).status = CC_ERETRY ∨ (T.tcpWrite s.wbuf).status = CC_EAGAIN
  · simp only [if_pos hr]
    split <;> rfl
  · simp only [if_neg hr]
    by_cases he : (T.tcpWrite s.wbuf).status = CC_ERROR
    · simp only [if_pos he]
      split <;> rfl
    · simp only [if_neg he]
      split <;> rfl

/-- Number of `retStream` markers in a trace: how many times the teardown
procedure `worker_ret_stream` was entered. -/
def countRet : List Act → Nat
  | [] => 0
  | Act.retStream _ :: t => countRet t + 1
  | _ :: t => countRet t

/-- Number of transport flush attempts (`buf_tcp_write` calls) in a trace. -/
def countTcpW : List Act → Nat
  | [] => 0
  | Act.tcpWrite _ :: t => countTcpW t + 1
  | _ :: t => countTcpW t

theorem countRet_append (t u : List Act) :
    countRet (t ++ u) = countRet t + countRet u := by
  induction t with
  | nil => simp [countRet]
  | cons a t ih => cases a <;> simp [countRet, ih] <;> omega

theorem countTcpW_append (t u : List Act) :
    countTcpW (t ++ u) = countTcpW t + countTcpW u := by
  induction t with
  | nil => simp [countTcpW]
  | cons a t ih => cases a <;> simp [countTcpW, ih] <;> omega

theorem countRet_write_trace (sid : Nat) (tstatus : Int) :
    countRet (write_trace sid tstatus) = 0 := by
  simp only [write_trace]
  split <;> rfl

/-! ### Projection lemmas for the pipe-write retry and teardown -/

theorem pipe_write_trace_eq (ps : Int) (st : WState) :
    (_worker_pipe_write ps st).trace =
      st.trace ++
        (if ps = 0 ∨ ps = CC_EAGAIN then [Act.pipeSend, Act.evAddWrite pipe_term_wid]
        else [Act.pipeSend]) := by
  simp only [_worker_pipe_write]
  split <;> simp

theorem pipe_write_conn_term (ps : Int) (st : WState) :
    (_worker_pipe_write ps st).conn_term = st.conn_term := by
  simp only [_worker_pipe_write]
  split <;> rfl

theorem pipe_write_conn_new (ps : Int) (st : WState) :
    (_worker_pipe_write ps st).conn_new = st.conn_new := by
  simp only [_worker_pipe_write]
  split <;> rfl

theorem pipe_write_evb (ps : Int) (st : WState) :
    (_worker_pipe_write ps st).evb =
      if ps = 0 ∨ ps = CC_EAGAIN then event_add_write st.evb pipe_term_wid none
      else st.evb := by
  simp only [_worker_pipe_write]
  split <;> simp_all

/-- The connection as it stands after the `error` hook has rewritten the
buffers and the private slot, just before it is pushed outbound. -/
def errSock (P : DataProcessor) (s : BufSock) : BufSock :=
  { s with
      rbuf := (P.error s.rbuf s.wbuf s.data).rbuf,
      wbuf := (P.error s.rbuf s.wbuf s.data).wbuf,
      data := (P.error s.rbuf s.wbuf s.data).data }

theorem ret_stream_trace_eq (P : DataProcessor) (ps : Int) (st : WState) (s : BufSock) :
    (worker_ret_stream P ps st s).trace =
      st.trace ++ [Act.retStream s.sid, Act.hookErr s.sid, Act.evDel s.sid] ++
        (match ring_array_push (errSock P s) st.conn_term with
        | none => [Act.chTerm s.sid, Act.sockReset s.sid]
        | some _ =>
          Act.ringPush s.sid ::
            (if ps = 0 ∨ ps = CC_EAGAIN then [Act.pipeSend, Act.evAddWrite pipe_term_wid]
            else [Act.pipeSend])) := by
  simp only [worker_ret_stream, errSock]
  split
  · simp
  · rw [pipe_write_trace_eq]
    simp

theorem ret_stream_conn_new (P : DataProcessor) (ps : Int) (st : WState) (s : BufSock) :
    (worker_ret_stream P ps st s).conn_new = st.conn_new := by
  simp only [worker_ret_stream]
  split
  · rfl
  · rw [pipe_write_conn_new]

theorem ret_stream_conn_term_eq (P : DataProcessor) (ps : Int) (st : WState) (s : BufSock) :
    (worker_ret_stream P ps st s).conn_term =
      match ring_array_push (errSock P s) st.conn_term with
      | none => st.conn_term
      | some q => q := by
  simp only [worker_ret_stream, errSock]
  split
  · rfl
  · rw [pipe_write_conn_term]

theorem ret_stream_evb_eq (P : DataProcessor) (ps : Int) (st : WState) (s : BufSock) :
    (worker_ret_stream P ps st s).evb =
      match ring_array_push (errSock P s) st.conn_term with
      | none => event_del st.evb s.sid
      | some _ =>
        if ps = 0 ∨ ps = CC_EAGAIN then
          event_add_write (event_del st.evb s.sid) pipe_term_wid none
        else event_del st.evb s.sid := by
  simp only [worker_ret_stream, errSock]
  split
  · rfl
  · rw [pipe_write_evb]

/-! ### Projection lemmas for the read handler and the connection arm -/

theorem event_read_fail_eq (P : DataProcessor) (T : Transport) (st : WState) (s : BufSock)
    (h : (P.read (T.tcpRead s.rbuf s.state).rbuf s.wbuf s.data).status < 0) :
    _worker_event_read P T st s =
      ({ st with trace := st.trace ++ [Act.tcpRead s.sid, Act.hookRead s.sid] },
       { sid := s.sid, state := ChannelState.TERM,
         rbuf := (P.read (T.tcpRead s.rbuf s.state).rbuf s.wbuf s.data).rbuf,
         wbuf := (P.read (T.tcpRead s.rbuf s.state).rbuf s.wbuf s.data).wbuf,
         data := (P.read (T.tcpRead s.rbuf s.state).rbuf s.wbuf s.data).data,
         owner := s.owner, hdl := s.hdl }) := by
  simp only [_worker_event_read]
  split
  · rfl
  · next hne => exact absurd h hne

theorem event_read_s_sid (P : DataProcessor) (T : Transport) (st : WState) (s : BufSock) :
    (_worker_event_read P T st s).2.sid = s.sid := by
  simp only [_worker_event_read]
  split
  · rfl
  · split
    · rw [event_write_s_sid]
    · rfl

theorem event_read_trace_eq (P : DataProcessor) (T : Transport) (st : WState) (s : BufSock) :
    ∃ t, (_worker_event_read P T st s).1.trace =
      st.trace ++ Act.tcpRead s.sid :: Act.hookRead s.sid :: t ∧
      countRet t = 0 ∧ countTcpW t ≤ 1 := by
  simp only [_worker_event_read]
  split
  · exact ⟨[], by simp, rfl, by simp [countTcpW]⟩
  · split
    · rw [event_write_st_eq]
      refine ⟨write_trace s.sid
          (T.tcpWrite (P.read (T.tcpRead s.rbuf s.state).rbuf s.wbuf s.data).wbuf).status,
        ?_, countRet_write_trace _ _, ?_⟩
      · simp
      · simp only [write_trace]
        split <;> simp [countTcpW, countTcpW_append]
    · exact ⟨[], by simp, rfl, by simp [countTcpW]⟩

theorem event_read_conn_new (P : DataProcessor) (T : Transport) (st : WState) (s : BufSock) :
    (_worker_event_read P T st s).1.conn_new = st.conn_new := by
  simp only [_worker_event_read]
  split
  · rfl
  · split
    · rw [event_write_st_eq]
    · rfl

theorem event_read_conn_term (P : DataProcessor) (T : Transport) (st : WState) (s : BufSock) :
    (_worker_event_read P T st s).1.conn_term = st.conn_term := by
  simp only [_worker_event_read]
  split
  · rfl
  · split
    · rw [event_write_st_eq]
    · rfl

theorem event_write_wr_pres (P : DataProcessor) (T : Transport) (st : WState) (s : BufSock)
    {j : Nat} (h : j ≠ s.sid) :
    ev_wr (_worker_event_write P T st s).st.evb j = ev_wr st.evb j := by
  rw [event_write_st_eq]
  by_cases hr : (T.tcpWrite s.wbuf).status = CC_ERETRY ∨ (T.tcpWrite s.wbuf).status = CC_EAGAIN
  · simp only [if_pos hr]
    rw [ev_wr_add_write_ne _ h, ev_wr_event_del_ne _ h]
  · simp only [if_neg hr]

theorem event_read_wr_pres (P : DataProcessor) (T : Transport) (st : WState) (s : BufSock)
    {j : Nat} (h : j ≠ s.sid) :
    ev_wr (_worker_event_read P T st s).1.evb j = ev_wr st.evb j := by
  simp only [_worker_event_read]
  split
  · rfl
  · split
    · exact event_write_wr_pres P T _ _ h
    · rfl

theorem event_write_countRet (P : DataProcessor) (T : Transport) (st : WState) (s : BufSock) :
    countRet (_worker_event_write P T st s).st.trace = countRet st.trace := by
  rw [event_write_st_eq]
  simp [countRet_append, countRet_write_trace]

theorem event_read_countRet (P : DataProcessor) (T : Transport) (st : WState) (s : BufSock) :
    countRet (_worker_event_read P T st s).1.trace = countRet st.trace := by
  obtain ⟨t, ht, hc, _⟩ := event_read_trace_eq P T st s
  rw [ht, countRet_append]
  simp [countRet, hc]

theorem conn_arm_s_sid (P : DataProcessor) (T : Transport) (events : EventSet)
    (st : WState) (s : BufSock) :
    (worker_event_conn P T events st s).2.sid = s.sid := by
  simp only [worker_event_conn]
  repeat' split
  all_goals simp [event_write_s_sid, event_read_s_sid]

theorem conn_arm_countRet (P : DataProcessor) (T : Transport) (events : EventSet)
    (st : WState) (s : BufSock) :
    countRet (worker_event_conn P T events st s).1.trace = countRet st.trace := by
  simp only [worker_event_conn]
  repeat' split
  all_goals simp [countRet_append, countRet, event_write_countRet, event_read_countRet]

theorem pre_trans {x y z : List Act} (h1 : ∃ t, y = x ++ t) (h2 : ∃ t, z = y ++ t) :
    ∃ t, z = x ++ t := by
  obtain ⟨a, ha⟩ := h1
  obtain ⟨b, hb⟩ := h2
  exact ⟨a ++ b, by rw [hb, ha, List.append_assoc]⟩

theorem event_write_trace_pre (P : DataProcessor) (T : Transport) (st : WState) (s : BufSock) :
    ∃ t, (_worker_event_write P T st s).st.trace = st.trace ++ t :=
  ⟨write_trace s.sid (T.tcpWrite s.wbuf).status, by rw [event_write_st_eq]⟩

theorem event_read_trace_pre (P : DataProcessor) (T : Transport) (st : WState) (s : BufSock) :
    ∃ t, (_worker_event_read P T st s).1.trace = st.trace ++ t := by
  obtain ⟨t, ht, _⟩ := event_read_trace_eq P T st s
  exact ⟨_, ht⟩

theorem conn_arm_trace_pre (P : DataProcessor) (T : Transport) (events : EventSet)
    (st : WState) (s : BufSock) :
    ∃ t, (worker_event_conn P T events st s).1.trace = st.trace ++ t := by
  obtain ⟨rd, wr, er⟩ := events
  cases rd <;> cases wr <;>
    simp only [worker_event_conn, Bool.false_eq_true, ite_true, ite_false, if_true, if_false]
  · exact ⟨[], by simp⟩
  · split
    · apply pre_trans (y := (_worker_event_write P T st s).st.trace)
      · exact event_write_trace_pre P T st s
      · exact ⟨_, rfl⟩
    · exact event_write_trace_pre P T st s
  · exact event_read_trace_pre P T st s
  · apply pre_trans (y := (_worker_event_read P T st s).1.trace)
    · exact event_read_trace_pre P T st s
    · split
      · apply pre_trans (y := (_worker_event_write P T
          (_worker_event_read P T st s).1 (_worker_event_read P T st s).2).st.trace)
        · exact event_write_trace_pre P T _ _
        · exact ⟨_, rfl⟩
      · exact event_write_trace_pre P T _ _

theorem countRet_ret_stream (P : DataProcessor) (ps : Int) (st : WState) (s : BufSock) :
    countRet (worker_ret_stream P ps st s).trace = countRet st.trace + 1 := by
  rw [ret_stream_trace_eq, countRet_append, countRet_append]
  split
  · simp [countRet]
  · split <;> simp [countRet]

theorem countTcpW_ret_stream (P : DataProcessor) (ps : Int) (st : WState) (s : BufSock) :
    countTcpW (worker_ret_stream P ps st s).trace = countTcpW st.trace := by
  rw [ret_stream_trace_eq, countTcpW_append, countTcpW_append]
  split
  · simp [countTcpW]
  · split <;> simp [countTcpW]

/-! ### Concrete processors, transports and states used in witnesses -/

/-- A processor whose hooks all succeed and leave the buffers untouched. -/
def P0 : DataProcessor :=
  { read := fun r w d => ⟨0, r, w, d⟩,
    write := fun r w d => ⟨0, r, w, d⟩,
    error := fun r w d => ⟨0, r, w, d⟩ }

/-- A processor whose hooks all signal failure. -/
def Pfail : DataProcessor :=
  { read := fun r w d => ⟨-1, r, w, d⟩,
    write := fun r w d => ⟨-1, r, w, d⟩,
    error := fun r w d => ⟨-1, r, w, d⟩ }

/-- A processor whose `write` hook signals failure and whose other hooks
succeed. -/
def PwFail : DataProcessor :=
  { read := fun r w d => ⟨0, r, w, d⟩,
    write := fun r w d => ⟨-1, r, w, d⟩,
    error := fun r w d => ⟨0, r, w, d⟩ }

/-- A transport that reads nothing and flushes the whole buffer with `CC_OK`. -/
def T0 : Transport :=
  { tcpRead := fun r chst => ⟨r, chst⟩,
    tcpWrite := fun _ => ⟨CC_OK, []⟩ }

/-- A transport whose flush always would-block (`CC_ERETRY`), leaving the
write buffer as is. -/
def Tretry : Transport :=
  { tcpRead := fun r chst => ⟨r, chst⟩,
    tcpWrite := fun w => ⟨CC_ERETRY, w⟩ }

/-- An open connection on socket id 2 with empty buffers. -/
def sock0 : BufSock := ⟨2, ChannelState.OPEN, [], [], 0, false, false⟩

/-- A worker state with an empty registration table and empty queues of
capacity 4. -/
def st0 : WState := ⟨[], ⟨4, []⟩, ⟨4, []⟩, []⟩

/-! ### Claim C2 -/

/-- C2: when Connection Write gets a retryable (would-block) transport
status, the connection's read interest is removed and write interest is
added: afterwards its id is registered with exactly the write interest —
neither both interests nor neither. -/
theorem claim_C2_retry_demotes_to_write_only
    (P : DataProcessor) (T : Transport) (st : WState) (s : BufSock)
    (hret : (T.tcpWrite s.wbuf).status = CC_ERETRY ∨ (T.tcpWrite s.wbuf).status = CC_EAGAIN) :
    ∃ ud, ev_lookup (_worker_event_write P T st s).st.evb s.sid =
      some (⟨false, true⟩, ud) := by
  rw [event_write_st_eq]
  refine ⟨some { s with wbuf := (T.tcpWrite s.wbuf).wbuf }, ?_⟩
  simp only [if_pos hret]
  rw [ev_lookup_add_write_self]
  simp [ev_rd, ev_lookup_event_del_self]

/-- Witness for C2 at a concrete input: a would-blocking transport on an open
connection leaves exactly write interest registered for its id. -/
theorem claim_C2_witness :
    ((Tretry.tcpWrite sock0.wbuf).status = CC_ERETRY ∨
      (Tretry.tcpWrite sock0.wbuf).status = CC_EAGAIN) ∧
    ∃ ud, ev_lookup (_worker_event_write P0 Tretry st0 sock0).st.evb sock0.sid =
      some (⟨false, true⟩, ud) :=
  ⟨by decide, claim_C2_retry_demotes_to_write_only P0 Tretry st0 sock0 (by decide)⟩

/-! ### Claim C4 -/

/-- C4: Connection Write always invokes the processor's `write` hook after
the transport flush attempt, whatever the transport outcome; and a negative
hook status forces state TERM and makes the function return the error status
even when the transport status was retryable or success. -/
theorem claim_C4_hook_after_flush
    (P : DataProcessor) (T : Transport) (st : WState) (s : BufSock) :
    (∃ mid, (_worker_event_write P T st s).st.trace =
        st.trace ++ Act.tcpWrite s.sid :: (mid ++ [Act.hookWrite s.sid])) ∧
    ((P.write s.rbuf (T.tcpWrite s.wbuf).wbuf s.data).status < 0 →
      (_worker_event_write P T st s).status = CC_ERROR ∧
      (_worker_event_write P T st s).s.state = ChannelState.TERM) := by
  constructor
  · rw [event_write_st_eq]
    refine ⟨if (T.tcpWrite s.wbuf).status = CC_ERETRY ∨ (T.tcpWrite s.wbuf).status = CC_EAGAIN
      then [Act.evDel s.sid, Act.evAddWrite s.sid] else [], ?_⟩
    simp only [write_trace]
    split <;> simp
  · intro h
    simp only [_worker_event_write]
    repeat' split
    all_goals first
      | exact ⟨rfl, rfl⟩
      | exact absurd h (by assumption)

/-- Witness for C4 at a concrete input: with a clean transport flush but a
failing `write` hook, the call returns `CC_ERROR` and the connection is in
state TERM. -/
theorem claim_C4_witness :
    ((PwFail.write sock0.rbuf (T0.tcpWrite sock0.wbuf).wbuf sock0.data).status < 0) ∧
    ((_worker_event_write PwFail T0 st0 sock0).status = CC_ERROR ∧
      (_worker_event_write PwFail T0 st0 sock0).s.state = ChannelState.TERM) :=
  ⟨by decide, (claim_C4_hook_after_flush PwFail T0 st0 sock0).2 (by decide)⟩

/-! ### Claim C1 -/

/-- C1 counterexample: in a dispatch whose event mask has both the READABLE
and the WRITABLE bits, the read hook returns a negative status and yet a
transport write is attempted in that same dispatch (the WRITABLE arm calls
`_worker_event_write` unconditionally), refuting "no write to the transport
is attempted within that same dispatch". -/
theorem claim_C1_counterexample :
    (Pfail.read (T0.tcpRead sock0.rbuf sock0.state).rbuf sock0.wbuf sock0.data).status < 0 ∧
    countTcpW (_worker_event Pfail T0 0 1 (some sock0) ⟨true, true, false⟩ st0).1.trace = 1 := by
  decide

/-- C1 amended: in a connection dispatch whose event mask includes READABLE
but not WRITABLE (the only masks deliverable while read interest alone is
registered), a negative read-hook status forces state TERM and no write to
the transport is attempted within that dispatch, regardless of the write
buffer's contents. -/
theorem claim_C1_amended (P : DataProcessor) (T : Transport) (pr ps : Int)
    (events : EventSet) (st : WState) (s : BufSock)
    (hrd : events.rd = true) (hwr : events.wr = false)
    (hfail : (P.read (T.tcpRead s.rbuf s.state).rbuf s.wbuf s.data).status < 0) :
    Option.map BufSock.state (_worker_event P T pr ps (some s) events st).2 =
      some ChannelState.TERM ∧
    countTcpW (_worker_event P T pr ps (some s) events st).1.trace = countTcpW st.trace := by
  have harm : worker_event_conn P T events st s =
      (({ st with trace := st.trace ++ [Act.tcpRead s.sid, Act.hookRead s.sid] } : WState),
        ({ sid := s.sid, state := ChannelState.TERM,
           rbuf := (P.read (T.tcpRead s.rbuf s.state).rbuf s.wbuf s.data).rbuf,
           wbuf := (P.read (T.tcpRead s.rbuf s.state).rbuf s.wbuf s.data).wbuf,
           data := (P.read (T.tcpRead s.rbuf s.state).rbuf s.wbuf s.data).data,
           owner := s.owner, hdl := s.hdl } : BufSock)) := by
    simp only [worker_event_conn, hrd, hwr, Bool.false_eq_true, ite_true, ite_false,
      if_true, if_false, event_read_fail_eq P T st s hfail]
    split <;> rfl
  simp only [_worker_event, harm]
  simp only [true_or, ite_true, if_true]
  constructor
  · rfl
  · rw [countTcpW_ret_stream]
    simp [countTcpW, countTcpW_append]

/-- Witness for the amended C1 at a concrete input: READABLE-only mask,
failing read hook. -/
theorem claim_C1_witness :
    ((⟨true, false, false⟩ : EventSet).rd = true ∧
      (⟨true, false, false⟩ : EventSet).wr = false ∧
      (Pfail.read (T0.tcpRead sock0.rbuf sock0.state).rbuf sock0.wbuf sock0.data).status < 0) ∧
    (Option.map BufSock.state
        (_worker_event Pfail T0 0 1 (some sock0) ⟨true, false, false⟩ st0).2 =
      some ChannelState.TERM ∧
    countTcpW (_worker_event Pfail T0 0 1 (some sock0) ⟨true, false, false⟩ st0).1.trace =
      countTcpW st0.trace) :=
  ⟨by decide, claim_C1_amended Pfail T0 0 1 ⟨true, false, false⟩ st0 sock0 rfl rfl (by decide)⟩

/-! ### Claim C3 -/

/-- C3 counterexample: a dispatch whose event mask is exactly the ERROR bit
leaves the connection in state TERM, not ERROR — the source's EVENT_ERR arm
assigns `CHANNEL_TERM`. -/
theorem claim_C3_counterexample :
    Option.map BufSock.state
        (_worker_event P0 T0 0 1 (some sock0) ⟨false, false, true⟩ st0).2 =
      some ChannelState.TERM ∧
    ChannelState.TERM ≠ ChannelState.ERROR := by
  decide

/-- C3 amended: a connection dispatch whose event mask includes the ERROR
bit forces the connection's state to TERM (a terminal state that, like
ERROR, leads to Return Connection in the same dispatch). -/
theorem claim_C3_amended (P : DataProcessor) (T : Transport) (pr ps : Int)
    (events : EventSet) (st : WState) (s : BufSock) (her : events.er = true) :
    Option.map BufSock.state (_worker_event P T pr ps (some s) events st).2 =
      some ChannelState.TERM := by
  simp only [_worker_event, worker_event_conn, her, ite_true, if_true]
  simp

/-- Witness for the amended C3 at a concrete input: ERROR-bit-only mask on an
open connection. -/
theorem claim_C3_witness :
    (⟨false, false, true⟩ : EventSet).er = true ∧
    Option.map BufSock.state
        (_worker_event P0 T0 0 1 (some sock0) ⟨false, false, true⟩ st0).2 =
      some ChannelState.TERM :=
  ⟨rfl, claim_C3_amended P0 T0 0 1 ⟨false, false, true⟩ st0 sock0 rfl⟩

/-! ### Inbound handoff: loop specification, claims C5 and C6 -/

/-- The actions of the inbound-handoff loop over the connections it pops, in
pop order. -/
def add_stream_trace : List BufSock → List Act
  | [] => []
  | s :: rest => Act.ringPop s.sid :: Act.evAddRead s.sid :: add_stream_trace rest

theorem worker_add_stream_loop_spec (n : Nat) :
    ∀ st : WState,
      ((st.conn_new.items.take n).map BufSock.sid).Nodup →
      (∀ s ∈ st.conn_new.items.take n, ev_lookup st.evb s.sid = none) →
      (worker_add_stream_loop n st).conn_new.items = st.conn_new.items.drop n ∧
      (worker_add_stream_loop n st).conn_new.cap = st.conn_new.cap ∧
      (worker_add_stream_loop n st).conn_term = st.conn_term ∧
      (worker_add_stream_loop n st).trace =
        st.trace ++ add_stream_trace (st.conn_new.items.take n) ∧
      (∀ s ∈ st.conn_new.items.take n,
        ev_lookup (worker_add_stream_loop n st).evb s.sid =
          some (⟨true, false⟩, some { s with owner := true, hdl := true })) ∧
      (∀ i, (∀ s ∈ st.conn_new.items.take n, s.sid ≠ i) →
        ev_lookup (worker_add_stream_loop n st).evb i = ev_lookup st.evb i) := by
  induction n with
  | zero =>
    intro st _ _
    simp [worker_add_stream_loop, add_stream_trace]
  | succ n ih =>
    intro st hnodup hfresh
    rcases hitems : st.conn_new.items with _ | ⟨s, rest⟩
    · have hpop : ring_array_pop st.conn_new = none := by
        simp [ring_array_pop, hitems]
      simp only [worker_add_stream_loop, hpop]
      simp [hitems, add_stream_trace]
    · have hpop : ring_array_pop st.conn_new =
          some (s, { st.conn_new with items := rest }) := by
        simp [ring_array_pop, hitems]
      rw [hitems] at hnodup hfresh
      simp only [List.take_succ_cons, List.map_cons] at hnodup
      obtain ⟨hnotmem, htail⟩ := List.nodup_cons.mp hnodup
      simp only [List.take_succ_cons] at hfresh
      have hside : ∀ x ∈ rest.take n, x.sid ≠ s.sid := by
        intro x hx hxe
        exact hnotmem (List.mem_map.mpr ⟨x, hx, hxe⟩)
      have hfresh_s : ev_lookup st.evb s.sid = none := hfresh s (List.mem_cons_self s _)
      obtain ⟨h1, h2, h3, h4, h5, h6⟩ := ih
        { evb := event_add_read st.evb s.sid
            (some { sid := s.sid, state := s.state, rbuf := s.rbuf, wbuf := s.wbuf,
                    data := s.data, owner := true, hdl := true }),
          conn_new := { cap := st.conn_new.cap, items := rest },
          conn_term := st.conn_term,
          trace := st.trace ++ [Act.ringPop s.sid, Act.evAddRead s.sid] }
        htail
        (by
          intro x hx
          rw [ev_lookup_add_read_ne st.evb (hside x hx) _]
          exact hfresh x (List.mem_cons_of_mem s hx))
      simp only [worker_add_stream_loop, hpop]
      refine ⟨?_, ?_, ?_, ?_, ?_, ?_⟩
      · simp only [h1, hitems]
        simp
      · simp only [h2]
      · exact h3
      · simp only [h4, hitems]
        simp [add_stream_trace, List.take_succ_cons, List.append_assoc]
      · intro x hx
        simp only [List.take_succ_cons, List.mem_cons] at hx
        rcases hx with rfl | hx
        · simp only [h6 x.sid hside]
          rw [ev_lookup_add_read_self, ev_wr_of_lookup_none hfresh_s]
        · exact h5 x hx
      · intro i hi
        simp only [List.take_succ_cons, List.mem_cons] at hi
        simp only [h6 i (fun y hy => hi y (Or.inr hy))]
        exact ev_lookup_add_read_ne st.evb (Ne.symm (hi s (Or.inl rfl))) _

/-- Three open connections with distinct socket ids, used as queued inbound
handoffs in witnesses. -/
def sockA : BufSock := ⟨5, ChannelState.OPEN, [], [], 0, false, false⟩

/-- Second witness connection. -/
def sockB : BufSock := ⟨6, ChannelState.OPEN, [], [], 0, false, false⟩

/-- Third witness connection. -/
def sockC : BufSock := ⟨7, ChannelState.OPEN, [], [], 0, false, false⟩

/-- A worker state whose inbound queue holds the three witness connections. -/
def stC5 : WState := ⟨[], ⟨4, [sockA, sockB, sockC]⟩, ⟨4, []⟩, []⟩

/-- C5: when the inbound signal drains n bytes and the inbound ring queue
holds at least n (distinct, unregistered) connections, exactly the first n
connections are popped in FIFO order — the queue keeps exactly the remaining
entries — and each popped connection ends registered for read interest with
its owner set to this reactor context and its handler set to this worker's
operation set; the trace records the pops in queue order. -/
theorem claim_C5_inbound_handoff (st : WState) (n : Nat)
    (hlen : n ≤ st.conn_new.items.length)
    (hnodup : ((st.conn_new.items.take n).map BufSock.sid).Nodup)
    (hfresh : ∀ s ∈ st.conn_new.items.take n, ev_lookup st.evb s.sid = none) :
    (worker_add_stream (Int.ofNat n) st).conn_new.items = st.conn_new.items.drop n ∧
    (worker_add_stream (Int.ofNat n) st).trace =
      st.trace ++ Act.pipeRecv :: add_stream_trace (st.conn_new.items.take n) ∧
    ∀ s ∈ st.conn_new.items.take n,
      ev_lookup (worker_add_stream (Int.ofNat n) st).evb s.sid =
        some (⟨true, false⟩, some { s with owner := true, hdl := true }) := by
  have hn : ¬ (Int.ofNat n < 0) := not_lt.mpr (Int.ofNat_nonneg n)
  simp only [worker_add_stream, if_neg hn, Int.toNat_ofNat]
  obtain ⟨h1, _, _, h4, h5, _⟩ := worker_add_stream_loop_spec n
    { evb := st.evb, conn_new := st.conn_new, conn_term := st.conn_term,
      trace := st.trace ++ [Act.pipeRecv] } hnodup hfresh
  exact ⟨h1, h4.trans (by simp), h5⟩

/-- Witness for C5 at a concrete input: three signal bytes, three queued
connections with distinct ids; all three end registered and the queue is
empty. -/
theorem claim_C5_witness :
    (3 ≤ stC5.conn_new.items.length ∧
      ((stC5.conn_new.items.take 3).map BufSock.sid).Nodup ∧
      ∀ s ∈ stC5.conn_new.items.take 3, ev_lookup stC5.evb s.sid = none) ∧
    ((worker_add_stream (Int.ofNat 3) stC5).conn_new.items = stC5.conn_new.items.drop 3 ∧
      (worker_add_stream (Int.ofNat 3) stC5).trace =
        stC5.trace ++ Act.pipeRecv :: add_stream_trace (stC5.conn_new.items.take 3) ∧
      ∀ s ∈ stC5.conn_new.items.take 3,
        ev_lookup (worker_add_stream (Int.ofNat 3) stC5).evb s.sid =
          some (⟨true, false⟩, some { s with owner := true, hdl := true })) :=
  ⟨⟨by decide, by decide, by decide⟩,
    claim_C5_inbound_handoff stC5 3 (by decide) (by decide) (by decide)⟩

/-- C6: when the inbound signal drains more bytes than the queue holds, only
the available entries are popped and processed and the remaining iterations
are abandoned (the queue is left empty, no pop past its content); and when
the pipe read itself fails, no connection is popped or registered in that
cycle and the call returns normally. -/
theorem claim_C6_undercount_and_pipe_error (st : WState) (n : Nat)
    (hnodup : (st.conn_new.items.map BufSock.sid).Nodup)
    (hfresh : ∀ s ∈ st.conn_new.items, ev_lookup st.evb s.sid = none)
    (hlt : st.conn_new.items.length < n) :
    ((worker_add_stream (Int.ofNat n) st).conn_new.items = [] ∧
      (worker_add_stream (Int.ofNat n) st).trace =
        st.trace ++ Act.pipeRecv :: add_stream_trace st.conn_new.items ∧
      ∀ s ∈ st.conn_new.items,
        ev_lookup (worker_add_stream (Int.ofNat n) st).evb s.sid =
          some (⟨true, false⟩, some { s with owner := true, hdl := true })) ∧
    ∀ pr : Int, pr < 0 →
      worker_add_stream pr st = { st with trace := st.trace ++ [Act.pipeRecv] } := by
  have htake : st.conn_new.items.take n = st.conn_new.items :=
    List.take_of_length_le (le_of_lt hlt)
  have hn : ¬ (Int.ofNat n < 0) := not_lt.mpr (Int.ofNat_nonneg n)
  constructor
  · simp only [worker_add_stream, if_neg hn, Int.toNat_ofNat]
    obtain ⟨h1, _, _, h4, h5, _⟩ := worker_add_stream_loop_spec n
      { evb := st.evb, conn_new := st.conn_new, conn_term := st.conn_term,
        trace := st.trace ++ [Act.pipeRecv] }
      (by simpa [htake] using hnodup)
      (by simpa [htake] using hfresh)
    refine ⟨?_, ?_, ?_⟩
    · exact h1.trans (List.drop_eq_nil_of_le (le_of_lt hlt))
    · exact h4.trans (by simp [htake])
    · intro s hs
      rw [← htake] at hs
      exact h5 s hs
  · intro pr hpr
    simp only [worker_add_stream, if_pos hpr]

/-- Witness for C6 at a concrete input: five signal bytes against three
queued connections; the three are processed, the queue ends empty. -/
theorem claim_C6_witness :
    ((stC5.conn_new.items.map BufSock.sid).Nodup ∧
      (∀ s ∈ stC5.conn_new.items, ev_lookup stC5.evb s.sid = none) ∧
      stC5.conn_new.items.length < 5) ∧
    (((worker_add_stream (Int.ofNat 5) stC5).conn_new.items = [] ∧
      (worker_add_stream (Int.ofNat 5) stC5).trace =
        stC5.trace ++ Act.pipeRecv :: add_stream_trace stC5.conn_new.items ∧
      ∀ s ∈ stC5.conn_new.items,
        ev_lookup (worker_add_stream (Int.ofNat 5) stC5).evb s.sid =
          some (⟨true, false⟩, some { s with owner := true, hdl := true })) ∧
    ∀ pr : Int, pr < 0 →
      worker_add_stream pr stC5 = { stC5 with trace := stC5.trace ++ [Act.pipeRecv] }) :=
  ⟨⟨by decide, by decide, by decide⟩,
    claim_C6_undercount_and_pipe_error stC5 5 (by decide) (by decide) (by decide)⟩

/-- C7: Return Connection invokes the processor's `error` hook before any
reactor unregistration, then unregisters the connection's interest, then
pushes the connection onto the outbound ring queue; a successful push is
followed by the Outbound Handoff Signal, while a full queue closes the
transport immediately and resets and returns the record locally (and sends no
signal).  The trace equation fixes the order; the queue and registration
equations fix the effects. -/
theorem claim_C7_ret_stream_order (P : DataProcessor) (ps : Int) (st : WState) (s : BufSock) :
    (worker_ret_stream P ps st s).trace =
      st.trace ++ [Act.retStream s.sid, Act.hookErr s.sid, Act.evDel s.sid] ++
        (match ring_array_push (errSock P s) st.conn_term with
        | none => [Act.chTerm s.sid, Act.sockReset s.sid]
        | some _ =>
          Act.ringPush s.sid ::
            (if ps = 0 ∨ ps = CC_EAGAIN then [Act.pipeSend, Act.evAddWrite pipe_term_wid]
            else [Act.pipeSend])) ∧
    (worker_ret_stream P ps st s).conn_term =
      (match ring_array_push (errSock P s) st.conn_term with
      | none => st.conn_term
      | some q => q) ∧
    (worker_ret_stream P ps st s).evb =
      (match ring_array_push (errSock P s) st.conn_term with
      | none => event_del st.evb s.sid
      | some _ =>
        if ps = 0 ∨ ps = CC_EAGAIN then
          event_add_write (event_del st.evb s.sid) pipe_term_wid none
        else event_del st.evb s.sid) :=
  ⟨ret_stream_trace_eq P ps st s, ret_stream_conn_term_eq P ps st s,
    ret_stream_evb_eq P ps st s⟩

/-- C8: a retryable (zero-byte or would-block) outbound signal write
registers write interest on the outbound signal channel's write id with null
user data, so a later WRITABLE dispatch with null user data retries the
one-byte write (its whole trace is exactly the retry's actions); a hard
failure changes nothing (the connection stays queued); a success registers
nothing.  In every case the queues are untouched. -/
theorem claim_C8_outbound_signal_retry (st : WState) (ps : Int) :
    ((_worker_pipe_write ps st).conn_term = st.conn_term ∧
      (_worker_pipe_write ps st).conn_new = st.conn_new) ∧
    (if ps = 0 ∨ ps = CC_EAGAIN then
      ev_lookup (_worker_pipe_write ps st).evb pipe_term_wid =
        some (⟨ev_rd st.evb pipe_term_wid, true⟩, none)
    else (_worker_pipe_write ps st).evb = st.evb) ∧
    ∀ (P : DataProcessor) (T : Transport) (pr ps' : Int) (st' : WState),
      (_worker_event P T pr ps' none ⟨false, true, false⟩ st').1.trace =
        st'.trace ++ (if ps' = 0 ∨ ps' = CC_EAGAIN
          then [Act.pipeSend, Act.evAddWrite pipe_term_wid] else [Act.pipeSend]) := by
  refine ⟨⟨pipe_write_conn_term ps st, pipe_write_conn_new ps st⟩, ?_, ?_⟩
  · rw [pipe_write_evb]
    split
    · rw [ev_lookup_add_write_self]
    · rfl
  · intro P T pr ps' st'
    simp only [_worker_event, Bool.false_eq_true, ite_true, ite_false, if_true, if_false]
    exact pipe_write_trace_eq ps' st'

/-- C9: in a connection dispatch the TERM-or-ERROR check and the resulting
Return Connection run exactly once, strictly after the READABLE, WRITABLE and
ERROR bits are handled: the bit-handling phase enters the teardown zero
times, the whole dispatch enters it exactly once when the post-bits state is
terminal and zero times otherwise, and an ERROR bit (even together with a
read that consumed data) always yields exactly one teardown in the same
dispatch. -/
theorem claim_C9_single_final_check (P : DataProcessor) (T : Transport) (pr ps : Int)
    (events : EventSet) (st : WState) (s : BufSock) :
    countRet (_worker_event P T pr ps (some s) events st).1.trace =
      countRet st.trace +
        (if (worker_event_conn P T events st s).2.state = ChannelState.TERM ∨
            (worker_event_conn P T events st s).2.state = ChannelState.ERROR
        then 1 else 0) ∧
    (∃ t, (_worker_event P T pr ps (some s) events st).1.trace =
      (worker_event_conn P T events st s).1.trace ++ t) ∧
    countRet (worker_event_conn P T events st s).1.trace = countRet st.trace ∧
    (events.er = true →
      countRet (_worker_event P T pr ps (some s) events st).1.trace =
        countRet st.trace + 1) := by
  have harm : events.er = true →
      (worker_event_conn P T events st s).2.state = ChannelState.TERM := by
    intro her
    simp [worker_event_conn, her]
  simp only [_worker_event]
  split
  · next hterm =>
    refine ⟨?_, ?_, conn_arm_countRet P T events st s, ?_⟩
    · rw [countRet_ret_stream, conn_arm_countRet]
    · exact ⟨_, (ret_stream_trace_eq P ps _ _).trans (List.append_assoc _ _ _)⟩
    · intro _
      rw [countRet_ret_stream, conn_arm_countRet]
  · next hterm =>
    refine ⟨?_, ⟨[], by simp⟩, conn_arm_countRet P T events st s, ?_⟩
    · simp [if_neg hterm, conn_arm_countRet]
    · intro her
      exact absurd (Or.inl (harm her)) hterm

/-! ### Claim C10: helper preservation lemmas -/

theorem ev_wr_del_ne' {i j : Nat} (h : j ≠ i) (evb : EventBase) :
    ev_wr (event_del evb i) j = ev_wr evb j :=
  ev_wr_event_del_ne evb h

theorem ev_wr_add_read_ne' {i j : Nat} (h : j ≠ i) (evb : EventBase) (ud : Option BufSock) :
    ev_wr (event_add_read evb i ud) j = ev_wr evb j :=
  ev_wr_add_read_ne evb h ud

theorem ev_wr_add_write_ne' {i j : Nat} (h : j ≠ i) (evb : EventBase) (ud : Option BufSock) :
    ev_wr (event_add_write evb i ud) j = ev_wr evb j :=
  ev_wr_add_write_ne evb h ud

theorem conn_arm_wr_pres (P : DataProcessor) (T : Transport) (events : EventSet)
    (st : WState) (s : BufSock) {j : Nat} (h : j ≠ s.sid) :
    ev_wr (worker_event_conn P T events st s).1.evb j = ev_wr st.evb j := by
  have hw : j ≠ (_worker_event_write P T st s).s.sid := by
    rw [event_write_s_sid]; exact h
  have hr : j ≠ (_worker_event_read P T st s).2.sid := by
    rw [event_read_s_sid]; exact h
  have hwr : j ≠ (_worker_event_write P T (_worker_event_read P T st s).1
      (_worker_event_read P T st s).2).s.sid := by
    rw [event_write_s_sid, event_read_s_sid]; exact h
  obtain ⟨rd, wr, er⟩ := events
  cases rd <;> cases wr <;>
    simp only [worker_event_conn, Bool.false_eq_true, ite_true, ite_false, if_true, if_false]
  · split
    · simp [ev_wr_add_read_ne' hw, ev_wr_del_ne' hw, event_write_wr_pres P T st s h]
    · exact event_write_wr_pres P T st s h
  · exact event_read_wr_pres P T st s h
  · split
    · simp [ev_wr_add_read_ne' hwr, ev_wr_del_ne' hwr,
        event_write_wr_pres P T (_worker_event_read P T st s).1
          (_worker_event_read P T st s).2 hr,
        event_read_wr_pres P T st s h]
    · simp [event_write_wr_pres P T (_worker_event_read P T st s).1
          (_worker_event_read P T st s).2 hr,
        event_read_wr_pres P T st s h]

theorem add_stream_loop_wr_pres (j : Nat) : ∀ (n : Nat) (st : WState),
    (∀ c ∈ st.conn_new.items, c.sid ≠ j) →
    ev_wr (worker_add_stream_loop n st).evb j = ev_wr st.evb j := by
  intro n
  induction n with
  | zero => intro st _; rfl
  | succ n ih =>
    intro st h
    rcases hitems : st.conn_new.items with _ | ⟨s, rest⟩
    · have hpop : ring_array_pop st.conn_new = none := by
        simp [ring_array_pop, hitems]
      simp only [worker_add_stream_loop, hpop]
    · have hpop : ring_array_pop st.conn_new =
          some (s, { st.conn_new with items := rest }) := by
        simp [ring_array_pop, hitems]
      rw [hitems] at h
      simp only [worker_add_stream_loop, hpop]
      exact (ih
        { evb := event_add_read st.evb s.sid
            (some { sid := s.sid, state := s.state, rbuf := s.rbuf, wbuf := s.wbuf,
                    data := s.data, owner := true, hdl := true }),
          conn_new := { cap := st.conn_new.cap, items := rest },
          conn_term := st.conn_term,
          trace := st.trace ++ [Act.ringPop s.sid, Act.evAddRead s.sid] }
        (fun c hc => h c (List.mem_cons_of_mem s hc))).trans
        (ev_wr_add_read_ne' (Ne.symm (h s (List.mem_cons_self s rest))) st.evb _)

theorem add_stream_wr_pres (pr : Int) (st : WState) (j : Nat)
    (h : ∀ c ∈ st.conn_new.items, c.sid ≠ j) :
    ev_wr (worker_add_stream pr st).evb j = ev_wr st.evb j := by
  simp only [worker_add_stream]
  split
  · rfl
  · exact add_stream_loop_wr_pres j pr.toNat _ h

theorem pipe_write_wr_true (ps : Int) (st : WState)
    (h : ev_wr st.evb pipe_term_wid = true) :
    ev_wr (_worker_pipe_write ps st).evb pipe_term_wid = true := by
  rw [pipe_write_evb]
  split
  · rw [ev_wr_add_write_self]
  · exact h

theorem ret_stream_wr_true (P : DataProcessor) (ps : Int) (st : WState) (s : BufSock)
    (hs : s.sid ≠ pipe_term_wid) (h : ev_wr st.evb pipe_term_wid = true) :
    ev_wr (worker_ret_stream P ps st s).evb pipe_term_wid = true := by
  rw [ret_stream_evb_eq]
  split
  · rw [ev_wr_del_ne' (Ne.symm hs)]
    exact h
  · split
    · rw [ev_wr_add_write_self]
    · rw [ev_wr_del_ne' (Ne.symm hs)]
      exact h

theorem add_stream_loop_trace_pre (n : Nat) : ∀ st : WState,
    ∃ t, (worker_add_stream_loop n st).trace = st.trace ++ t := by
  induction n with
  | zero => intro st; exact ⟨[], by simp [worker_add_stream_loop]⟩
  | succ n ih =>
    intro st
    rcases hitems : st.conn_new.items with _ | ⟨s, rest⟩
    · have hpop : ring_array_pop st.conn_new = none := by
        simp [ring_array_pop, hitems]
      simp only [worker_add_stream_loop, hpop]
      exact ⟨[], by simp⟩
    · have hpop : ring_array_pop st.conn_new =
          some (s, { st.conn_new with items := rest }) := by
        simp [ring_array_pop, hitems]
      simp only [worker_add_stream_loop, hpop]
      apply pre_trans (y := st.trace ++ [Act.ringPop s.sid, Act.evAddRead s.sid])
      · exact ⟨_, rfl⟩
      · exact ih _

theorem add_stream_trace_pre (pr : Int) (st : WState) :
    ∃ t, (worker_add_stream pr st).trace = st.trace ++ t := by
  simp only [worker_add_stream]
  split
  · exact ⟨[Act.pipeRecv], rfl⟩
  · apply pre_trans (y := st.trace ++ [Act.pipeRecv])
    · exact ⟨_, rfl⟩
    · exact add_stream_loop_trace_pre pr.toNat _

/-- C10: no worker operation unregisters the outbound signal channel's write
interest once it is registered (all `event_del` calls target connection ids),
and every dispatch of a WRITABLE event with null user data unconditionally
attempts one more one-byte signal send — even when no new terminated
connection has been queued since the pending retry succeeded. -/
theorem claim_C10_signal_write_interest_stays (P : DataProcessor) (T : Transport)
    (pr ps : Int) (arg : Option BufSock) (events : EventSet) (st : WState)
    (hconns : ∀ c ∈ st.conn_new.items, c.sid ≠ pipe_term_wid)
    (harg : ∀ b, arg = some b → b.sid ≠ pipe_term_wid)
    (hreg : ev_wr st.evb pipe_term_wid = true) :
    ev_wr (_worker_event P T pr ps arg events st).1.evb pipe_term_wid = true ∧
    (arg = none → events.wr = true →
      Act.pipeSend ∈ (_worker_event P T pr ps arg events st).1.trace.drop st.trace.length) := by
  cases arg with
  | none =>
    constructor
    · simp only [_worker_event]
      have h1 : ev_wr (if events.rd = true then worker_add_stream pr st else st).evb
          pipe_term_wid = true := by
        split
        · rw [add_stream_wr_pres pr st pipe_term_wid hconns]
          exact hreg
        · exact hreg
      split
      · exact pipe_write_wr_true ps _ h1
      · exact h1
    · intro _ hwr
      simp only [_worker_event, hwr, ite_true, if_true]
      obtain ⟨α, hα⟩ : ∃ t,
          (if events.rd = true then worker_add_stream pr st else st).trace =
            st.trace ++ t := by
        split
        · exact add_stream_trace_pre pr st
        · exact ⟨[], by simp⟩
      rw [pipe_write_trace_eq, hα, List.append_assoc, List.drop_left]
      apply List.mem_append.mpr
      right
      split <;> simp
  | some s =>
    have hsid : s.sid ≠ pipe_term_wid := harg s rfl
    constructor
    · simp only [_worker_event]
      have h1 : ev_wr (worker_event_conn P T events st s).1.evb pipe_term_wid = true := by
        rw [conn_arm_wr_pres P T events st s (Ne.symm hsid)]
        exact hreg
      split
      · apply ret_stream_wr_true
        · rw [conn_arm_s_sid]
          exact hsid
        · exact h1
      · exact h1
    · intro hn
      exact Option.noConfusion hn

/-- A worker state whose only registration is write interest on the outbound
signal pipe's write id with null user data (a pending signal retry). -/
def stW : WState := ⟨[(pipe_term_wid, ⟨false, true⟩, none)], ⟨4, []⟩, ⟨4, []⟩, []⟩

/-- Witness for C10 at a concrete input: WRITABLE dispatch with null user
data on a state with a pending signal retry; the write interest survives and
one more byte send is attempted. -/
theorem claim_C10_witness :
    ((∀ c ∈ stW.conn_new.items, c.sid ≠ pipe_term_wid) ∧
      (∀ b : BufSock, (none : Option BufSock) = some b → b.sid ≠ pipe_term_wid) ∧
      ev_wr stW.evb pipe_term_wid = true) ∧
    (ev_wr (_worker_event P0 T0 0 0 none ⟨false, true, false⟩ stW).1.evb
        pipe_term_wid = true ∧
      ((none : Option BufSock) = none → (⟨false, true, false⟩ : EventSet).wr = true →
        Act.pipeSend ∈
          (_worker_event P0 T0 0 0 none ⟨false, true, false⟩ stW).1.trace.drop
            stW.trace.length)) :=
  ⟨⟨by decide, fun b h => Option.noConfusion h, by decide⟩,
    claim_C10_signal_write_interest_stays P0 T0 0 0 none ⟨false, true, false⟩ stW
      (by decide) (fun b h => Option.noConfusion h) (by decide)⟩

end PelikanWorker
